import Mathlib

/-!
Shallow embedding of the data-ingestion core of the repository
(`src/services/fileService.ts`, `src/services/databaseService.ts`).

JavaScript strings are modelled as Lean `String`s; the JS string
operations used by the source (`split` on a single-character separator,
`trim`, truthiness of strings) are modelled explicitly below on the
underlying character list, matching JS semantics (`"".split(d) = [""]`,
`trim` strips ASCII whitespace from both ends, a string is truthy iff
it is nonempty).
-/

deriving instance DecidableEq for Except

namespace DataScribe

/-! ## Definitions: the embedded program -/

/-- JS whitespace characters relevant to the inputs handled here. -/
def isJsWhitespace (c : Char) : Bool :=
  c = ' ' || c = '\t' || c = '\n' || c = '\r'

/-- Model of JS `String.prototype.trim`. -/
def jsTrim (s : String) : String :=
  ⟨((s.data.dropWhile isJsWhitespace).reverse.dropWhile isJsWhitespace).reverse⟩

/-- Model of JS `String.prototype.split` with a single-character separator. -/
def jsSplit (s : String) (d : Char) : List String :=
  (s.data.splitOn d).map (fun l => ⟨l⟩)

/-- The canonical parsed table (`ProcessedData` in `fileService.ts`).
A preview entry records, in order, the key/value assignments performed by
the source's `headers.forEach` loop; a value of `none` models the JS
`undefined` produced by out-of-range row indexing. -/
structure ProcessedData where
  headers : List String
  rows : List (List String)
  preview : List (List (String × Option String))
  totalRows : Nat
  fileName : String
  fileType : String
deriving DecidableEq, Repr

/-- `ValidationResult` of `fileService.validateData`. -/
structure ValidationResult where
  isValid : Bool
  errors : List String
deriving DecidableEq, Repr

/-- One step of the character loop of `parseCSVLine` (fileService.ts,
lines 163-183): state is (result so far, current field, inQuotes). -/
def csvStep (st : List String × String × Bool) (c : Char) :
    List String × String × Bool :=
  if c = '"' then (st.1, st.2.1, !st.2.2)
  else if c = ',' ∧ st.2.2 = false then (st.1 ++ [jsTrim st.2.1], "", st.2.2)
  else (st.1, st.2.1.push c, st.2.2)

/-- `parseCSVLine` from the source: fold the step over the line's
characters, then push the final field (trimmed) regardless of quote
state. -/
def parseCSVLine (line : String) : List String :=
  let st := line.data.foldl csvStep ([], "", false)
  st.1 ++ [jsTrim st.2.1]

/-- Reference semantics of quoted-CSV record parsing, following the
specification text: a double quote toggles the inside-quotes mode and is
not emitted; a comma ends the current field only when not inside quotes;
every other character accumulates into the current field; the final field
ends at line end regardless of quote state. Produces the raw
(untrimmed) fields. -/
def csvFieldsSpec : Bool → List Char → List (List Char)
  | _, [] => [[]]
  | q, c :: cs =>
    if c = '"' then csvFieldsSpec (!q) cs
    else if c = ',' ∧ q = false then [] :: csvFieldsSpec false cs
    else
      match csvFieldsSpec q cs with
      | [] => [[c]]
      | f :: fs => (c :: f) :: fs

/-- Reference parse of one CSV line per the specification: the raw fields
of `csvFieldsSpec`, each trimmed. -/
def parseCSVLineSpec (line : String) : List String :=
  (csvFieldsSpec false line.data).map (fun f => jsTrim ⟨f⟩)

/-- `text.split('\n').filter(line => line.trim())`: split on newline and
keep the lines whose trim is nonempty (a JS string is truthy iff
nonempty). Shared by `processCSVFile` and `processTextFile`. -/
def jsLines (text : String) : List String :=
  (jsSplit text '\n').filter (fun l => jsTrim l != "")

/-- The delimiter candidates of `detectDelimiter`, in source order. -/
def delimCandidates : List Char := ['\t', ',', '|', ';', ':']

/-- Number of fields obtained when splitting `line` on delimiter `d`. -/
def splitCount (line : String) (d : Char) : Nat :=
  (jsSplit line d).length

/-- `detectDelimiter` from the source (fileService.ts, lines 185-199):
scan the candidates, keeping the one with the strictly greatest field
count on the given line (initial best: count 0, delimiter `','`). -/
def detectDelimiter (line : String) : Char :=
  (delimCandidates.foldl
    (fun acc d => if splitCount line d > acc.1 then (splitCount line d, d) else acc)
    (0, ',')).2

/-- The preview entry built by the `headers.forEach` loop of
`processExcelFile` and `processCSVFile`: key is the raw header, value is
`row[index]` (`none` models the `undefined` of out-of-range indexing). -/
def previewEntry (headers row : List String) : List (String × Option String) :=
  headers.enum.map (fun ih => (ih.2, row.get? ih.1))

/-- The preview entry built by `processTextFile`: key is `header.trim()`,
value is `row[index]?.trim()`. -/
def previewEntryText (headers row : List String) : List (String × Option String) :=
  headers.enum.map (fun ih => (jsTrim ih.2, (row.get? ih.1).map jsTrim))

/-- `processCSVFile` as a function of the decoded file text (the
`FileReader` plumbing is outside the model; a read failure is a distinct
rejection not modelled here). When the input has no nonblank line,
`lines[0]` is `undefined` and `parseCSVLine(undefined)` throws a
`TypeError`, which the source's catch converts into a rejection; the
model returns the corresponding error value. -/
def processCSVFile (fileName text : String) : Except String ProcessedData :=
  match jsLines text with
  | [] => .error "Failed to process CSV file: TypeError"
  | l0 :: rest =>
    let headers := parseCSVLine l0
    let rows := rest.map parseCSVLine
    .ok { headers := headers
          rows := rows
          preview := (rows.take 10).map (previewEntry headers)
          totalRows := rows.length
          fileName := fileName
          fileType := "csv" }

/-- `processTextFile` as a function of the decoded file text. The
delimiter is sniffed from the first nonblank line only and applied to
every subsequent line; the `headers` field is trimmed, the `rows` field
holds the split fields verbatim, and only the preview trims values. -/
def processTextFile (fileName text : String) : Except String ProcessedData :=
  match jsLines text with
  | [] => .error "Failed to process text file: TypeError"
  | l0 :: rest =>
    let delimiter := detectDelimiter l0
    let headers := jsSplit l0 delimiter
    let rows := rest.map (fun l => jsSplit l delimiter)
    .ok { headers := headers.map jsTrim
          rows := rows
          preview := (rows.take 10).map (previewEntryText headers)
          totalRows := rows.length
          fileName := fileName
          fileType := "text" }

/-- `processExcelFile` as a function of the first sheet's row-major cell
matrix (the output of `XLSX.utils.sheet_to_json(ws, {header: 1})`; the
workbook decoding itself is outside the model). `jsonData[0] || []`
yields `[]` when the sheet is empty, since only `undefined` is falsy
among the possible values. -/
def processExcelFile (fileName : String) (jsonData : List (List String)) :
    ProcessedData :=
  let headers := jsonData.headD []
  let rows := jsonData.drop 1
  { headers := headers
    rows := rows
    preview := (rows.take 10).map (previewEntry headers)
    totalRows := rows.length
    fileName := fileName
    fileType := "excel" }

/-- `validateData` (fileService.ts, lines 201-225): accumulate the three
structural checks in source order; `isValid` is `errors.length === 0`. -/
def validateData (data : ProcessedData) : ValidationResult :=
  let errors0 : List String := []
  let errors1 :=
    if data.headers.any (fun h => jsTrim h == "") then
      errors0 ++ ["Some column headers are empty"]
    else errors0
  let inconsistentRows :=
    data.rows.filter (fun row => row.length != data.headers.length)
  let errors2 :=
    if inconsistentRows.length > 0 then
      errors1 ++ [toString inconsistentRows.length ++ " rows have inconsistent column counts"]
    else errors1
  let errors3 :=
    if data.totalRows = 0 then errors2 ++ ["No data rows found"] else errors2
  { isValid := errors3.length == 0, errors := errors3 }

/-- The input with its blank (empty or all-whitespace) lines removed,
rejoined with newlines. -/
def stripBlankLines (text : String) : String :=
  ⟨List.intercalate ['\n'] ((jsLines text).map String.data)⟩

/-- A SQL value as placed into the bulk-insert value rows: a string cell,
the JS `undefined` produced when every alias of a field is unpopulated,
or the `new Date()` timestamp. -/
inductive SqlValue
  | str (s : String)
  | undefined
  | date
deriving DecidableEq, Repr

/-- A query parameter: the code list of the duplicate check, or the value
matrix of the bulk insert. -/
inductive SqlParam
  | codes (cs : List String)
  | rows (vs : List (List SqlValue))
deriving DecidableEq, Repr

/-- One row of a SELECT result, as consumed by `checkDuplicates`. -/
structure DbRow where
  product_code : String
deriving DecidableEq, Repr

/-- `QueryResult` of `databaseService.ts`. -/
structure QueryResult where
  success : Bool
  data : Option (List DbRow) := none
  affectedRows : Option Nat := none
  insertId : Option Nat := none
  error : Option String := none
deriving DecidableEq, Repr

/-- One store round-trip: the query string and its parameters, recorded
whenever `executeQuery` is reached. -/
structure StoreCall where
  query : String
  params : List SqlParam
deriving DecidableEq, Repr

/-- An input product object: each field is `none` when the property is
absent (`undefined`), `some s` when present with string value `s`. -/
structure DbProduct where
  name : Option String := none
  product_name : Option String := none
  code : Option String := none
  product_code : Option String := none
  sku : Option String := none
  category : Option String := none
  price : Option String := none
  description : Option String := none
deriving DecidableEq, Repr

/-- JS `a || b` on possibly-absent strings: `a` unless it is absent or
the empty string (both falsy). -/
def jsOrString (a b : Option String) : Option String :=
  match a with
  | some s => if s = "" then b else some s
  | none => b

/-- The natural-key fallback of `insertProducts`:
`product.code || product.product_code || product.sku`. -/
def naturalKeyValue (p : DbProduct) : Option String :=
  jsOrString p.code (jsOrString p.product_code p.sku)

/-- Coerce a possibly-absent string into the SQL value actually sent. -/
def toSqlValue : Option String → SqlValue
  | some s => .str s
  | none => .undefined

/-- The value row built for one product by `insertProducts`. -/
def productRow (p : DbProduct) : List SqlValue :=
  [ toSqlValue (jsOrString p.name p.product_name),
    toSqlValue (naturalKeyValue p),
    toSqlValue p.category,
    toSqlValue p.price,
    toSqlValue p.description,
    .date ]

/-- The (whitespace-normalised) insert statement of `insertProducts`. -/
def insertQuery : String :=
  "INSERT INTO pim_product (product_name, product_code, category, price, description, created_at) VALUES ?"

/-- The query of `checkDuplicates`. -/
def duplicatesQuery : String :=
  "SELECT product_code FROM pim_product WHERE product_code IN (?)"

/-- The source's `executeQuery`: a simulated store round-trip that always
succeeds with `affectedRows: 1` and a pseudo-random `insertId` (the
randomness is modelled as the parameter `rnd`). It returns the result
together with the one store call it issues. -/
def executeQuery (rnd : Nat) (query : String) (params : List SqlParam) :
    QueryResult × List StoreCall :=
  ({ success := true, affectedRows := some 1, insertId := some rnd },
   [{ query := query, params := params }])

/-- The store behaviour of the source's `executeQuery`, as a response
function (used where only the returned result matters). -/
def mockStore (rnd : Nat) : String → List SqlParam → QueryResult :=
  fun query params => (executeQuery rnd query params).1

/-- `insertProducts` from the source (databaseService.ts, lines 54-83):
build one value row per product (no filtering or rejection of any kind)
and hand the whole matrix to a single `executeQuery` call. Returns the
result and the store calls issued. -/
def insertProducts (rnd : Nat) (products : List DbProduct) :
    QueryResult × List StoreCall :=
  let values := products.map productRow
  executeQuery rnd insertQuery [SqlParam.rows values]

/-- `checkDuplicates` from the source (databaseService.ts, lines 85-98),
with the store round-trip (`this.executeQuery`) abstracted as the
response function `store`, so that both the simulated store of the source
and any other store behaviour at the store boundary can be plugged in.
The returned list is the existing codes when the result succeeds and
carries data, and `[]` otherwise; the second component records the store
call issued. -/
def checkDuplicates (store : String → List SqlParam → QueryResult)
    (productCodes : List String) : List String × List StoreCall :=
  let result := store duplicatesQuery [SqlParam.codes productCodes]
  ((if result.success then
      match result.data with
      | some rows => rows.map (fun r => r.product_code)
      | none => []
    else []),
   [{ query := duplicatesQuery, params := [SqlParam.codes productCodes] }])

/-- A store whose existence lookup fails with a concrete reason. -/
def failingStore : String → List SqlParam → QueryResult :=
  fun _ _ => { success := false, error := some "Connection lost" }

/-- A store whose existence lookup succeeds and finds no existing rows. -/
def emptyResultStore : String → List SqlParam → QueryResult :=
  fun _ _ => { success := true, data := some [] }

/-- A candidate product none of whose natural-key aliases is populated:
`code` and `sku` absent, `product_code` the (falsy) empty string. -/
def emptyKeyProduct : DbProduct :=
  { name := some "Widget", product_code := some "" }

/-! ## Theorems

Helper lemmas first, then one theorem per claim (with counterexamples and
witnesses where the claim's status calls for them). -/

/-- `csvFieldsSpec` always produces at least one field. -/
theorem csvFieldsSpec_ne_nil (q : Bool) (cs : List Char) :
    csvFieldsSpec q cs ≠ [] := by
  induction cs generalizing q with
  | nil => simp [csvFieldsSpec]
  | cons c cs ih =>
    unfold csvFieldsSpec
    split_ifs with h1 h2
    · exact ih (!q)
    · simp
    · cases hcs : csvFieldsSpec q cs <;> simp

/-- Unfolding `csvFieldsSpec` on an ordinary (accumulating) character. -/
theorem csvFieldsSpec_cons_other {c : Char} {q : Bool} (cs : List Char)
    (h1 : c ≠ '"') (h2 : ¬(c = ',' ∧ q = false)) :
    csvFieldsSpec q (c :: cs) = (csvFieldsSpec q cs).modifyHead (fun f => c :: f) := by
  simp only [csvFieldsSpec]
  rw [if_neg h1, if_neg h2]
  cases hcs : csvFieldsSpec q cs with
  | nil => exact absurd hcs (csvFieldsSpec_ne_nil q cs)
  | cons f fs => rfl

/-- The character fold of `parseCSVLine`, related to the reference field
decomposition: folding from state `(res, cur, q)` produces `res` followed
by the fields of the rest of the line, the first of which is prefixed by
the pending partial field `cur`. -/
theorem csv_foldl_spec (cs : List Char) (res : List String) (cur : String) (q : Bool) :
    (cs.foldl csvStep (res, cur, q)).1 ++ [jsTrim (cs.foldl csvStep (res, cur, q)).2.1]
      = res ++ ((csvFieldsSpec q cs).modifyHead (fun f => cur.data ++ f)).map
          (fun f => jsTrim ⟨f⟩) := by
  induction cs generalizing res cur q with
  | nil => simp [csvFieldsSpec, List.modifyHead]
  | cons c cs ih =>
    by_cases h1 : c = '"'
    · subst h1
      rw [List.foldl_cons]
      have hstep : csvStep (res, cur, q) '"' = (res, cur, !q) := by
        unfold csvStep; simp
      have hspec : csvFieldsSpec q ('"' :: cs) = csvFieldsSpec (!q) cs := by
        simp [csvFieldsSpec]
      rw [hstep, ih, hspec]
    · by_cases h2 : c = ',' ∧ q = false
      · obtain ⟨hc, hq⟩ := h2
        subst hc; subst hq
        rw [List.foldl_cons]
        have hstep : csvStep (res, cur, false) ',' =
            (res ++ [jsTrim cur], "", false) := by
          unfold csvStep; simp
        have hspec : csvFieldsSpec false (',' :: cs) = [] :: csvFieldsSpec false cs := by
          simp [csvFieldsSpec]
        rw [hstep, ih, hspec]
        cases hcs : csvFieldsSpec false cs with
        | nil => exact absurd hcs (csvFieldsSpec_ne_nil false cs)
        | cons f fs => simp [List.modifyHead]
      · rw [List.foldl_cons]
        have hstep : csvStep (res, cur, q) c = (res, cur.push c, q) := by
          unfold csvStep; rw [if_neg h1, if_neg h2]
        rw [hstep, ih, csvFieldsSpec_cons_other cs h1 h2]
        cases hcs : csvFieldsSpec q cs with
        | nil => exact absurd hcs (csvFieldsSpec_ne_nil q cs)
        | cons f fs => simp [List.modifyHead, String.push]

/-- Splitting always yields at least one field (`"".split(d) = [""]`). -/
theorem splitCount_pos (line : String) (d : Char) : 0 < splitCount line d := by
  unfold splitCount jsSplit
  rw [List.length_map]
  exact List.length_pos.mpr (List.splitOnP_ne_nil _ line.data)

/-- The sniffed delimiter is one of the five candidates, attains the
greatest field count on the given line among them, and on a tie the
candidate earliest in the fixed order wins. -/
theorem detectDelimiter_opt (line : String) :
    detectDelimiter line ∈ delimCandidates
    ∧ (∀ d ∈ delimCandidates,
        splitCount line d ≤ splitCount line (detectDelimiter line))
    ∧ (∀ d ∈ delimCandidates,
        splitCount line d = splitCount line (detectDelimiter line) →
        delimCandidates.indexOf (detectDelimiter line) ≤ delimCandidates.indexOf d) := by
  have ht : splitCount line '\t' > 0 := splitCount_pos line '\t'
  unfold detectDelimiter
  simp only [delimCandidates, List.foldl_cons, List.foldl_nil]
  rw [if_pos ht]
  split_ifs with h1 h2 h3 h4 <;>
    dsimp only at * <;>
    refine ⟨by decide, fun d hd => ?_, fun d hd heq => ?_⟩ <;>
    fin_cases hd <;>
    first
      | omega
      | decide

/-- Positional lookup: the value at `i` when `i` is in range, the absent
marker otherwise. -/
theorem get?_eq_dite {α : Type} (l : List α) (i : Nat) :
    l.get? i = if h : i < l.length then some (l.get ⟨i, h⟩) else none := by
  split_ifs with h
  · exact List.get?_eq_get h
  · exact List.get?_eq_none.mpr (le_of_not_lt h)

/-- A preview entry zips the headers positionally with the row, mapping
positions beyond the row's length to the absent marker. -/
theorem previewEntry_eq (headers row : List String) :
    previewEntry headers row = headers.enum.map (fun ih =>
      (ih.2, if h : ih.1 < row.length then some (row.get ⟨ih.1, h⟩) else none)) := by
  unfold previewEntry
  simp only [get?_eq_dite]

/-- Same, for the trimming preview of the generic-delimited path. -/
theorem previewEntryText_eq (headers row : List String) :
    previewEntryText headers row = headers.enum.map (fun ih =>
      (jsTrim ih.2,
        if h : ih.1 < row.length then some (jsTrim (row.get ⟨ih.1, h⟩)) else none)) := by
  unfold previewEntryText
  simp only [get?_eq_dite]
  apply List.map_congr_left
  intro ih _
  by_cases h : ih.1 < row.length <;> simp [h]

/-- No element of a piece produced by `splitOnP p` satisfies `p`. -/
theorem forall_mem_splitOnP {α : Type} (p : α → Bool) (xs : List α) :
    ∀ l ∈ xs.splitOnP p, ∀ a ∈ l, p a = false := by
  induction xs with
  | nil =>
    intro l hl
    rw [List.splitOnP_nil] at hl
    simp only [List.mem_singleton] at hl
    subst hl
    simp
  | cons x xs ih =>
    intro l hl
    rw [List.splitOnP_cons] at hl
    by_cases hx : p x
    · rw [if_pos hx] at hl
      rcases List.mem_cons.mp hl with rfl | hl
      · simp
      · exact ih l hl
    · rw [if_neg hx] at hl
      cases hs : xs.splitOnP p with
      | nil => exact absurd hs (List.splitOnP_ne_nil p xs)
      | cons f fs =>
        rw [hs] at hl
        rcases List.mem_cons.mp hl with rfl | hl
        · intro a ha
          rcases List.mem_cons.mp ha with rfl | ha
          · simpa using hx
          · exact ih f (hs ▸ List.mem_cons_self f fs) a ha
        · exact ih l (hs ▸ List.mem_cons_of_mem f hl)

/-- The separator does not occur inside any piece of `splitOn`. -/
theorem not_mem_of_mem_splitOn {c : Char} {xs : List Char} {l : List Char}
    (hl : l ∈ xs.splitOn c) : c ∉ l := by
  intro hc
  have := forall_mem_splitOnP (· == c) xs l hl c hc
  simp at this

/-- Splitting the rejoined nonblank lines recovers exactly the nonblank
lines: `jsLines` is invariant under `stripBlankLines`. -/
theorem jsLines_stripBlankLines (text : String) :
    jsLines (stripBlankLines text) = jsLines text := by
  cases hparts : jsLines text with
  | nil =>
    unfold stripBlankLines
    rw [hparts]
    decide
  | cons l0 rest =>
    unfold jsLines jsSplit stripBlankLines
    rw [hparts]
    have hsplit : (List.intercalate ['\n'] ((l0 :: rest).map String.data)).splitOn '\n'
        = (l0 :: rest).map String.data := by
      apply List.splitOn_intercalate
      · intro l hlmem
        simp only [List.mem_map] at hlmem
        obtain ⟨s, hs, rfl⟩ := hlmem
        have hs' : s ∈ jsLines text := hparts ▸ hs
        have hs'' : s ∈ jsSplit text '\n' := List.mem_of_mem_filter hs'
        unfold jsSplit at hs''
        simp only [List.mem_map] at hs''
        obtain ⟨l, hl, rfl⟩ := hs''
        exact not_mem_of_mem_splitOn hl
      · simp
    show (((⟨List.intercalate ['\n'] ((l0 :: rest).map String.data)⟩ : String).data.splitOn
          '\n').map (fun l => (⟨l⟩ : String))).filter (fun l => jsTrim l != "")
        = l0 :: rest
    rw [hsplit, List.map_map]
    rw [show ((fun l => (⟨l⟩ : String)) ∘ String.data) = id from funext fun s => rfl]
    rw [List.map_id]
    rw [List.filter_eq_self.mpr]
    intro a ha
    have hmem : a ∈ (jsSplit text '\n').filter (fun l => jsTrim l != "") := by
      have : a ∈ jsLines text := hparts ▸ ha
      unfold jsLines at this
      exact this
    have hpa := List.of_mem_filter hmem
    exact hpa

/-! ### The claims -/

/-- C1 (counterexample): resolving duplicates for an empty candidate list
and inserting an empty record list each issue a store query (the recorded
call trace is nonempty), contradicting the claim that the store is never
contacted for an empty batch; the empty insert moreover reports the
store's affectedRows = 1, not insertedCount = 0. -/
theorem c1_counterexample :
    (checkDuplicates (mockStore 0) []).2 ≠ []
    ∧ (insertProducts 0 []).2 ≠ []
    ∧ (insertProducts 0 []).1.affectedRows = some 1 := by
  decide

/-- C1 (amended): for an empty input batch, duplicate resolution returns
an empty duplicate list and bulk insertion returns a success result with
no error field, but each operation issues exactly one store query (empty
inputs are not special-cased), and the insert result carries the store's
affectedRows (1 for the simulated store) rather than an insertedCount of
0. -/
theorem c1_empty_batch_amended (rnd : Nat) :
    (checkDuplicates (mockStore rnd) []).1 = []
    ∧ (checkDuplicates (mockStore rnd) []).2.length = 1
    ∧ (insertProducts rnd []).1.success = true
    ∧ (insertProducts rnd []).1.error = none
    ∧ (insertProducts rnd []).1.affectedRows = some 1
    ∧ (insertProducts rnd []).2.length = 1 :=
  ⟨rfl, rfl, rfl, rfl, rfl, rfl⟩

/-- C2 (counterexample): a candidate whose natural-key aliases are all
unpopulated (code and sku absent, product_code the empty string) is not
rejected: insertProducts passes its value row — with an undefined key in
the product_code position — to the bulk-insert store call, contradicting
the claim that no such record is ever passed to the bulk insert. -/
theorem c2_counterexample :
    naturalKeyValue emptyKeyProduct = none
    ∧ (insertProducts 0 [emptyKeyProduct]).2 =
        [{ query := insertQuery,
           params := [SqlParam.rows [productRow emptyKeyProduct]] }]
    ∧ (productRow emptyKeyProduct).get? 1 = some SqlValue.undefined := by
  decide

/-- C2 (amended): insertProducts performs no natural-key validation at
all: for every product list it builds one value row per product
(resolving the key by the code, product_code, sku fallback, which may
resolve to undefined) and passes all of them, unfiltered, to the single
bulk-insert store call; no record is rejected and no separate rejected
count exists. -/
theorem c2_no_rejection_amended (rnd : Nat) (products : List DbProduct) :
    (insertProducts rnd products).2 =
      [{ query := insertQuery,
         params := [SqlParam.rows (products.map productRow)] }]
    ∧ (products.map productRow).length = products.length := by
  exact ⟨rfl, by simp⟩

/-- C3 (counterexample): a failed existence lookup is not surfaced —
checkDuplicates over a store that fails with a concrete error returns
exactly the same value (an empty duplicate list, no error indication) as
over a store that succeeds finding no duplicates, so the failure is
indistinguishable from "no duplicates found", contradicting the claim. -/
theorem c3_counterexample :
    (checkDuplicates failingStore ["A1"]).1 = []
    ∧ checkDuplicates failingStore ["A1"] = checkDuplicates emptyResultStore ["A1"] := by
  decide

/-- C3 (amended): whenever the store's existence lookup fails (its result
has success = false) or carries no data, checkDuplicates swallows the
failure and returns the empty duplicate list, exactly as for a successful
lookup that found nothing; no reason is surfaced to the caller. -/
theorem c3_swallowed_failure_amended (store : String → List SqlParam → QueryResult)
    (codes : List String)
    (h : (store duplicatesQuery [SqlParam.codes codes]).success = false
       ∨ (store duplicatesQuery [SqlParam.codes codes]).data = none) :
    (checkDuplicates store codes).1 = [] := by
  unfold checkDuplicates
  rcases h with h | h
  · simp [h]
  · cases hs : (store duplicatesQuery [SqlParam.codes codes]).success <;> simp [h, hs]

/-- Witness for C3 (amended) at a concrete store and code list. -/
theorem c3_swallowed_failure_amended_witness :
    (checkDuplicates (mockStore 3) ["A1", "B2"]).1 = [] :=
  c3_swallowed_failure_amended (mockStore 3) ["A1", "B2"] (Or.inr (by decide))

/-- C4: validateData is a total function that runs all three checks in a
fixed order without short-circuiting: its error list is exactly the
ordered concatenation of the blank-header error, a single aggregated
row-length error citing the number of offending rows, and the zero-row
error, each present iff its check fires; isValid holds iff the error list
is empty; and a table with totalRows = 0 always yields at least one
error. -/
theorem c4_validateData_spec (d : ProcessedData) :
    (validateData d).errors =
      (if d.headers.any (fun h => jsTrim h == "") then
        ["Some column headers are empty"] else [])
      ++ (if (d.rows.filter (fun row => row.length != d.headers.length)).length > 0 then
            [toString (d.rows.filter (fun row => row.length != d.headers.length)).length
              ++ " rows have inconsistent column counts"]
          else [])
      ++ (if d.totalRows = 0 then ["No data rows found"] else [])
    ∧ ((validateData d).isValid = true ↔ (validateData d).errors = [])
    ∧ (d.totalRows = 0 → (validateData d).errors ≠ []) := by
  unfold validateData
  refine ⟨?_, ?_, ?_⟩ <;> dsimp only <;> split_ifs <;> simp_all

/-- C5: for generic-delimited input the delimiter is chosen from exactly
the candidates tab, comma, pipe, semicolon, colon by splitting only the
header line and picking the candidate with the greatest field count, ties
resolved in favour of the earliest candidate in that fixed order; the
chosen delimiter is then applied unchanged, without re-sniffing, to the
header and to every subsequent line. -/
theorem c5_delimiter_sniffing (line : String) :
    (detectDelimiter line ∈ delimCandidates
      ∧ (∀ d ∈ delimCandidates,
          splitCount line d ≤ splitCount line (detectDelimiter line))
      ∧ (∀ d ∈ delimCandidates,
          splitCount line d = splitCount line (detectDelimiter line) →
          delimCandidates.indexOf (detectDelimiter line) ≤ delimCandidates.indexOf d))
    ∧ (∀ fileName text hd tl, jsLines text = hd :: tl →
        processTextFile fileName text = .ok
          { headers := (jsSplit hd (detectDelimiter hd)).map jsTrim
            rows := tl.map (fun l => jsSplit l (detectDelimiter hd))
            preview := ((tl.map (fun l => jsSplit l (detectDelimiter hd))).take 10).map
              (previewEntryText (jsSplit hd (detectDelimiter hd)))
            totalRows := tl.length
            fileName := fileName
            fileType := "text" }) := by
  refine ⟨detectDelimiter_opt line, ?_⟩
  intro fileName text hd tl h
  unfold processTextFile
  rw [h]
  simp

/-- C6 (counterexample): in the generic-delimited path the data rows are
not trimmed: parsing a file whose data line is " x | y " returns the row
[" x ", " y "] with its surrounding whitespace intact, contradicting the
claim that every cell value of every data row is trimmed. -/
theorem c6_counterexample :
    (processTextFile "f.txt" "a|b\n x | y ").map ProcessedData.rows
      = .ok [[" x ", " y "]]
    ∧ jsTrim " x " ≠ " x " := by
  decide

/-- C6 (amended): in the generic-delimited path the headers are trimmed
and the preview keys and values are trimmed (previewEntryText applies
jsTrim to both), but the row cells of the returned table hold the split
fields verbatim, untrimmed. -/
theorem c6_trimming_amended (fileName text hd : String) (tl : List String)
    (t : ProcessedData) (h : jsLines text = hd :: tl)
    (ht : processTextFile fileName text = .ok t) :
    t.headers = (jsSplit hd (detectDelimiter hd)).map jsTrim
    ∧ t.rows = tl.map (fun l => jsSplit l (detectDelimiter hd))
    ∧ t.preview = (t.rows.take 10).map
        (previewEntryText (jsSplit hd (detectDelimiter hd))) := by
  unfold processTextFile at ht
  rw [h] at ht
  simp only [Except.ok.injEq] at ht
  subst ht
  exact ⟨rfl, rfl, rfl⟩

/-- Witness for C6 (amended) at a concrete pipe-delimited input. -/
theorem c6_trimming_amended_witness :
    ({ headers := ["a", "b"], rows := [[" x ", " y "]],
       preview := [[("a", some "x"), ("b", some "y")]],
       totalRows := 1, fileName := "f.txt", fileType := "text" }
        : ProcessedData).rows
      = [" x | y "].map (fun l => jsSplit l (detectDelimiter "a|b")) :=
  (c6_trimming_amended "f.txt" "a|b\n x | y " "a|b" [" x | y "] _
    (by decide) (by decide)).2.1

/-- C7: for every input line, parseCSVLine behaves as the quoted-record
reference semantics: a double quote toggles the inside-quotes mode and is
not emitted, a comma ends the current field only when not inside quotes,
every other character accumulates into the current field, each field is
trimmed, and the final field ends at line end regardless of quote state
(an unterminated quote is never an error — both functions are total). -/
theorem c7_parseCSVLine_refines_spec (line : String) :
    parseCSVLine line = parseCSVLineSpec line := by
  unfold parseCSVLine parseCSVLineSpec
  have h := csv_foldl_spec line.data [] "" false
  have hmod : (csvFieldsSpec false line.data).modifyHead (fun f => "".data ++ f)
      = csvFieldsSpec false line.data := by
    cases csvFieldsSpec false line.data <;> simp [List.modifyHead]
  rw [hmod] at h
  simpa using h

/-- C8: comma-delimited parsing is invariant under stripping blank lines
first (the discard of empty and all-whitespace lines happens before any
row indexing), and the data rows of a successful parse are exactly the
per-line parses of the nonblank lines after the header — so blank lines
never appear as data rows. -/
theorem c8_blank_line_invariance (fileName text : String) :
    processCSVFile fileName (stripBlankLines text) = processCSVFile fileName text
    ∧ (∀ t, processCSVFile fileName text = .ok t →
        t.rows = ((jsLines text).drop 1).map parseCSVLine) := by
  constructor
  · unfold processCSVFile
    rw [jsLines_stripBlankLines]
  · intro t ht
    unfold processCSVFile at ht
    cases h : jsLines text with
    | nil => rw [h] at ht; cases ht
    | cons l0 rest =>
      rw [h] at ht
      simp only [Except.ok.injEq] at ht
      subst ht
      rfl

/-- Witness for C8's row characterisation at a concrete input with an
interior blank line. -/
theorem c8_blank_line_invariance_witness :
    ({ headers := ["a", "b"], rows := [["1", "2"]],
       preview := [[("a", some "1"), ("b", some "2")]],
       totalRows := 1, fileName := "f.csv", fileType := "csv" }
        : ProcessedData).rows
      = ((jsLines "a,b\n\n1,2").drop 1).map parseCSVLine :=
  (c8_blank_line_invariance "f.csv" "a,b\n\n1,2").2 _ (by decide)

/-- C9: every table produced by the three parse paths satisfies
preview.length ≤ min(10, rows.length) and totalRows = rows.length, and
each preview entry maps each header (trimmed, in the generic-delimited
path) to the positionally corresponding cell of its row, with positions
beyond the row's length mapped to the absent marker rather than causing
an error. -/
theorem c9_preview_invariant :
    (∀ fileName jsonData,
      (processExcelFile fileName jsonData).preview.length
          ≤ min 10 (processExcelFile fileName jsonData).rows.length
      ∧ (processExcelFile fileName jsonData).totalRows
          = (processExcelFile fileName jsonData).rows.length
      ∧ (processExcelFile fileName jsonData).preview
          = ((processExcelFile fileName jsonData).rows.take 10).map (fun row =>
              (processExcelFile fileName jsonData).headers.enum.map (fun ih =>
                (ih.2, if h : ih.1 < row.length then some (row.get ⟨ih.1, h⟩) else none))))
    ∧ (∀ fileName text t, processCSVFile fileName text = .ok t →
        t.preview.length ≤ min 10 t.rows.length
        ∧ t.totalRows = t.rows.length
        ∧ t.preview = (t.rows.take 10).map (fun row =>
            t.headers.enum.map (fun ih =>
              (ih.2, if h : ih.1 < row.length then some (row.get ⟨ih.1, h⟩) else none))))
    ∧ (∀ fileName text t hd tl, jsLines text = hd :: tl →
        processTextFile fileName text = .ok t →
        t.preview.length ≤ min 10 t.rows.length
        ∧ t.totalRows = t.rows.length
        ∧ t.preview = (t.rows.take 10).map (fun row =>
            (jsSplit hd (detectDelimiter hd)).enum.map (fun ih =>
              (jsTrim ih.2,
                if h : ih.1 < row.length then some (jsTrim (row.get ⟨ih.1, h⟩))
                else none)))) := by
  refine ⟨?_, ?_, ?_⟩
  · intro fileName jsonData
    refine ⟨?_, rfl, ?_⟩
    · show (((jsonData.drop 1).take 10).map (previewEntry (jsonData.headD []))).length
          ≤ min 10 (jsonData.drop 1).length
      simp [List.length_take]
    · show ((jsonData.drop 1).take 10).map (previewEntry (jsonData.headD []))
          = ((jsonData.drop 1).take 10).map _
      apply List.map_congr_left
      intro row _
      exact previewEntry_eq _ row
  · intro fileName text t ht
    unfold processCSVFile at ht
    cases h : jsLines text with
    | nil => rw [h] at ht; cases ht
    | cons l0 rest =>
      rw [h] at ht
      simp only [Except.ok.injEq] at ht
      subst ht
      refine ⟨?_, rfl, ?_⟩
      · simp [List.length_take]
      · apply List.map_congr_left
        intro row _
        exact previewEntry_eq _ row
  · intro fileName text t hd tl h ht
    unfold processTextFile at ht
    rw [h] at ht
    simp only [Except.ok.injEq] at ht
    subst ht
    refine ⟨?_, rfl, ?_⟩
    · simp [List.length_take]
    · apply List.map_congr_left
      intro row _
      exact previewEntryText_eq _ row

/-- C10: an input with no nonblank line is handled inconsistently across
the three parse paths: the comma-delimited and generic-delimited paths
fail with a parse error (the missing header line makes the per-line
parser run on an undefined value), while the spreadsheet path (whose
empty sheet decodes to an empty cell matrix) succeeds with headers = [],
rows = [] and totalRows = 0. -/
theorem c10_blank_input_inconsistency (fileName text : String)
    (h : jsLines text = []) :
    processCSVFile fileName text = .error "Failed to process CSV file: TypeError"
    ∧ processTextFile fileName text = .error "Failed to process text file: TypeError"
    ∧ processExcelFile fileName [] =
        { headers := [], rows := [], preview := [], totalRows := 0,
          fileName := fileName, fileType := "excel" } := by
  refine ⟨?_, ?_, rfl⟩
  · unfold processCSVFile
    rw [h]
  · unfold processTextFile
    rw [h]

/-- Witness for C10 at a concrete whitespace-only input. -/
theorem c10_blank_input_inconsistency_witness :
    processCSVFile "f.csv" "\n  \n" = .error "Failed to process CSV file: TypeError" :=
  (c10_blank_input_inconsistency "f.csv" "\n  \n" (by decide)).1

end DataScribe
